import Mathlib

/-!
# Verification of the Vocab SRS application core (src/app.js)

Shallow embedding of the vocabulary spaced-repetition application.

Modelling conventions:
* JavaScript strings are modelled as `List Char` (`Str`); string literals are
  written as `"...".data`.
* JavaScript numbers are modelled as `ℚ` (the arithmetic performed by the
  scheduler — addition, multiplication, `Math.round`, `Math.floor`, clamping —
  is exact on the rationals; decimal literals such as `0.1` denote the exact
  decimal value).
* `Date.now()` is modelled as an explicit time parameter `t`: each call to an
  operation happens at a single ambient instant.
* In-place mutation of objects is modelled by functions returning the updated
  value.
* `uid()` (a random fresh identifier) is modelled by explicit fresh-identifier
  parameters.
-/

namespace VocabSRS

/-! ## Definitions: shallow embedding of src/app.js -/

/-- JavaScript strings are modelled as lists of characters. -/
abbrev Str := List Char

/-- JS whitespace characters (the ones relevant to this development). -/
def isJsWS (c : Char) : Bool :=
  c = ' ' ∨ c = '\t' ∨ c = '\n' ∨ c = '\r'

/-- `String.prototype.trim()`: strip leading and trailing whitespace. -/
def jsTrim (s : Str) : Str :=
  ((s.dropWhile isJsWS).reverse.dropWhile isJsWS).reverse

/-- `String.prototype.toLowerCase()` (ASCII fragment). -/
def jsToLower (s : Str) : Str := s.map Char.toLower

/-- `String.prototype.includes(needle)`: substring test. -/
def jsIncludes (s needle : Str) : Bool :=
  decide (needle <:+: s)

/-- `norm` from src/app.js: trim, lower-case, collapse whitespace runs to a
single space. -/
def collapseWS : Str → Str
  | [] => []
  | [c] => if isJsWS c then [' '] else [c]
  | c :: d :: rest =>
    if isJsWS c ∧ isJsWS d then collapseWS (d :: rest)
    else (if isJsWS c then ' ' else c) :: collapseWS (d :: rest)

/-- `norm(s)` = `String(s).trim().toLowerCase().replace(/\s+/g, " ")`. -/
def norm (s : Str) : Str := collapseWS (jsToLower (jsTrim s))

/-- `const DAY = 24 * 60 * 60 * 1000`. -/
def DAY : ℚ := 24 * 60 * 60 * 1000

/-- `clamp(n, a, b)` from src/app.js. -/
def clamp (n a b : ℚ) : ℚ := min b (max a n)

/-- `Math.round` (round half toward +∞), as an exact operation on ℚ. -/
def jsRound (x : ℚ) : ℚ := ((⌊x + 1/2⌋ : ℤ) : ℚ)

/-- `Math.floor`, as an exact operation on ℚ. -/
def jsFloor (x : ℚ) : ℚ := ((⌊x⌋ : ℤ) : ℚ)

/-- The `srs` record of an item: `{ ef, reps, intervalDays, due, lapses,
lastReviewed }`. All fields are JS numbers, modelled as ℚ. -/
structure SRS where
  ef : ℚ
  reps : ℚ
  intervalDays : ℚ
  due : ℚ
  lapses : ℚ
  lastReviewed : ℚ
deriving DecidableEq, Repr

/-- `defaultSRS()` from src/app.js; `t` is the value of `now()`. -/
def defaultSRS (t : ℚ) : SRS :=
  { ef := 2.5, reps := 0, intervalDays := 0, due := t, lapses := 0,
    lastReviewed := 0 }

/-- `gradeToQuality(grade)` from src/app.js (default case returns 4). -/
def gradeToQuality (grade : String) : ℚ :=
  if grade = "again" then 1
  else if grade = "hard" then 3
  else if grade = "good" then 4
  else if grade = "easy" then 5
  else 4

/-- `applyGrade(item, grade)` from src/app.js, acting on the resolved `srs`
record `s` (`item.srs || defaultSRS()`). `t` is the ambient `now()`;
`hintUsed` is `session?.hintUsed` (false when there is no session). The
`session?.revealed` branch of the source is a no-op and contributes nothing.
The `?? ` defaults on `s.reps`, `s.intervalDays`, `s.ef`, `s.lapses` in the
source only fire for records with absent fields, which the record type `SRS`
cannot represent. -/
def applyGrade (t : ℚ) (hintUsed : Bool) (s : SRS) (grade : String) : SRS :=
  let q := gradeToQuality grade
  let s1 : SRS := { s with lastReviewed := t }
  let s2 : SRS :=
    if q < 3 then
      { s1 with reps := 0, intervalDays := 1, lapses := s1.lapses + 1 }
    else
      let reps := s1.reps + 1
      { s1 with
        reps := reps
        intervalDays :=
          if reps = 1 then 1
          else if reps = 2 then 6
          else jsRound (s1.intervalDays * s1.ef) }
  let s3 : SRS :=
    { s2 with ef := clamp (s2.ef + (0.1 - (5 - q) * (0.08 + (5 - q) * 0.02))) 1.3 2.7 }
  let s4 : SRS :=
    if hintUsed = true ∧ q > 3 then
      { s3 with intervalDays := max 1 (jsFloor (s3.intervalDays * 0.7)) }
    else s3
  { s4 with due := t + s4.intervalDays * DAY }

/-- An item of a deck. The field `ex` models the source's `example` field
(`example` is a Lean keyword); `srs : Option SRS` models that an item's `srs`
record may be absent (`it.srs?`). -/
structure Item where
  id : Str
  term : Str
  definition : Str
  ex : Str
  createdAt : ℚ
  srs : Option SRS
deriving DecidableEq, Repr

/-- A deck: `{ id, title, createdAt, items }`. -/
structure Deck where
  id : Str
  title : Str
  createdAt : ℚ
  items : List Item
deriving DecidableEq, Repr

/-- `it.srs?.due ?? t`: an item with no review state is treated as due now. -/
def itemDue (t : ℚ) (it : Item) : ℚ :=
  match it.srs with
  | some s => s.due
  | none => t

/-- `deck.items.filter(it => (it.srs?.due ?? t) <= t)` from `startStudy`. -/
def dueItems (t : ℚ) (items : List Item) : List Item :=
  items.filter fun it => decide (itemDue t it ≤ t)

/-- `const pool = ahead ? deck.items.slice() : dueItems` from `startStudy`. -/
def startStudyPool (t : ℚ) (ahead : Bool) (items : List Item) : List Item :=
  if ahead then items else dueItems t items

/-- `pool.sort((a, b) => (a.srs?.due ?? t) - (b.srs?.due ?? t))` from
`startStudy` (ascending, stable). -/
def startStudySorted (t : ℚ) (ahead : Bool) (items : List Item) : List Item :=
  (startStudyPool t ahead items).mergeSort fun a b => decide (itemDue t a ≤ itemDue t b)

/-- `queue: pool.slice(0, Math.min(limit, pool.length)).map(it => it.id)` from
`startStudy` (after the in-place sort). -/
def startStudyQueue (t : ℚ) (limit : ℕ) (ahead : Bool) (items : List Item) : List Str :=
  ((startStudySorted t ahead items).take
    (min limit (startStudyPool t ahead items).length)).map Item.id

/-- `pickTaskForItem(item, forcedMode)` from src/app.js. `count` is
`deck.items.length`; `r` is the value of the uniform draw `Math.random()` in
the mixed branch. -/
def pickTaskForItem (count : ℕ) (forcedMode : String) (r : ℚ) : String :=
  let canMC := decide (4 ≤ count)
  if forcedMode = "mc" then (if canMC then "mc" else "type_def")
  else if forcedMode = "type_def" then "type_def"
  else if forcedMode = "type_audio" then "type_audio"
  else if canMC = true ∧ r < 0.45 then "mc"
  else if r < 0.75 then "type_def"
  else "type_audio"

/-- The grading click handler's effect on the current item:
`applyGrade(item, grade)` resolves `item.srs || defaultSRS()` and writes the
updated record back to `item.srs`. -/
def gradeItem (t : ℚ) (hintUsed : Bool) (it : Item) (grade : String) : Item :=
  { it with srs := some (applyGrade t hintUsed (it.srs.getD (defaultSRS t)) grade) }

/-- The same effect seen at deck level: `session.current` is a reference to
the item with the current id inside `deck.items`, mutated in place. -/
def gradeItemInDeck (t : ℚ) (hintUsed : Bool) (d : Deck) (itemId : Str) (grade : String) :
    Deck :=
  { d with items := d.items.map fun it =>
      if it.id = itemId then gradeItem t hintUsed it grade else it }

/-- The character loop of `parseCSVLine(line)` from src/app.js: `cur` is the
current cell, `inQ` the in-quotes flag; cells are emitted in order. -/
def parseCSVLineCore : List Char → Str → Bool → List Str
  | [], cur, _ => [cur]
  | '"' :: '"' :: rest, cur, true => parseCSVLineCore rest (cur ++ ['"']) true
  | '"' :: rest, cur, inQ => parseCSVLineCore rest cur (!inQ)
  | c :: rest, cur, inQ =>
    if c = ',' ∧ inQ = false then cur :: parseCSVLineCore rest [] false
    else parseCSVLineCore rest (cur ++ [c]) inQ

/-- `parseCSVLine(line)`: split a CSV line into cells and trim each
(`out.map(s => s.trim())`). -/
def parseCSVLine (line : Str) : List Str :=
  (parseCSVLineCore line [] false).map jsTrim

/-- `text.replace(/\r\n/g, "\n")` (left-to-right, non-overlapping). -/
def crlfToLf : List Char → List Char
  | [] => []
  | [c] => [c]
  | c :: d :: rest =>
    if c = '\r' ∧ d = '\n' then '\n' :: crlfToLf rest
    else c :: crlfToLf (d :: rest)

/-- `text.replace(/\r/g, "\n")`. -/
def crToLf (s : List Char) : List Char :=
  s.map fun c => if c = '\r' then '\n' else c

/-- `String.prototype.split("\n")`. -/
def splitLines : List Char → List Str
  | [] => [[]]
  | c :: rest =>
    if c = '\n' then [] :: splitLines rest
    else
      match splitLines rest with
      | [] => [[c]]
      | l :: ls => (c :: l) :: ls

/-- The line extraction of `parseCSV`: normalize newlines, split, drop lines
that are blank after trimming. -/
def csvLines (text : Str) : List Str :=
  (splitLines (crToLf (crlfToLf text))).filter fun l => decide (jsTrim l ≠ [])

/-- A row produced by the header branch of `parseCSV`
(`{ term, definition, example }`; the `ex` field models `example`). -/
structure CSVRec where
  term : Str
  definition : Str
  ex : Str
deriving DecidableEq, Repr

/-- The result of `parseCSV`: bare arrays when no header row was detected,
records otherwise. -/
inductive CSVRows where
  | raw (rows : List (List Str))
  | recs (rows : List CSVRec)
deriving DecidableEq, Repr

/-- `parseCSV(text)` from src/app.js. -/
def parseCSV (text : Str) : CSVRows :=
  match csvLines text with
  | [] => .raw []
  | l0 :: ls =>
    let rawRows := (l0 :: ls).map parseCSVLine
    let header := (parseCSVLine l0).map norm
    if ("term").data ∈ header ∧ ("definition").data ∈ header then
      let idxTerm := header.indexOf (("term").data)
      let idxDef := header.indexOf (("definition").data)
      let idxEx := header.findIdx? fun h => h = ("example").data
      CSVRows.recs (rawRows.tail.map fun cols =>
        { term := cols.getD idxTerm []
          definition := cols.getD idxDef []
          ex := match idxEx with
            | some i => cols.getD i []
            | none => [] })
    else CSVRows.raw rawRows

/-- `String(v).replaceAll('"', '""')` from `exportDeckCSV`. -/
def jsEscQuotes : Str → Str
  | [] => []
  | c :: rest => if c = '"' then '"' :: '"' :: jsEscQuotes rest else c :: jsEscQuotes rest

/-- One quoted CSV cell: `` `"${...}"` ``. -/
def renderField (v : Str) : Str := '"' :: (jsEscQuotes v ++ ['"'])

/-- One row of `exportDeckCSV`:
`[it.term, it.definition, it.example || ""].map(quote).join(",")`. -/
def renderRow (it : Item) : Str :=
  renderField it.term ++ [','] ++ renderField it.definition ++ [','] ++ renderField it.ex

/-- The header line `term,definition,example`. -/
def csvHeader : Str := ("term,definition,example").data

/-- `Array.prototype.join("\n")`. -/
def joinLines : List Str → Str
  | [] => []
  | [l] => l
  | l :: ls => l ++ '\n' :: joinLines ls

/-- `exportDeckCSV` from src/app.js: the generated CSV text for a deck. -/
def exportDeckCSV (d : Deck) : Str :=
  joinLines (csvHeader :: d.items.map renderRow)

/-- Top-level persisted state: `{ activeDeckId, decks }`. The `decks` object
(string-keyed, insertion-ordered) is modelled as a list of decks indexed by
their `id` field. -/
structure AppState where
  activeDeckId : Str
  decks : List Deck
deriving DecidableEq, Repr

/-- `state.decks[id] = deck` on a JS object: overwrite the entry with that key
when present, append a new entry otherwise. -/
def setDeck (ds : List Deck) (d : Deck) : List Deck :=
  if ds.any fun e => decide (e.id = d.id) then
    ds.map fun e => if e.id = d.id then d else e
  else ds ++ [d]

/-- The `srs` object of an item in a parsed JSON import file; every numeric
field may be absent (`?? ` defaults in the source). -/
structure JSONSRSIn where
  ef : Option ℚ
  reps : Option ℚ
  intervalDays : Option ℚ
  due : Option ℚ
  lapses : Option ℚ
  lastReviewed : Option ℚ
deriving DecidableEq, Repr

/-- An item of a parsed JSON import file (`ex` models `example`). -/
structure JSONItemIn where
  id : Option Str
  term : Option Str
  definition : Option Str
  ex : Option Str
  createdAt : Option ℚ
  srs : Option JSONSRSIn
deriving DecidableEq, Repr

/-- The deck object of a parsed JSON import file, after the envelope
unwrapping `parsed.deck && Array.isArray(parsed.deck.items) ? parsed.deck :
parsed` (a successful `JSON.parse` is a parameter of the model). -/
structure JSONDeckIn where
  id : Option Str
  title : Option Str
  createdAt : Option ℚ
  items : List JSONItemIn
deriving DecidableEq, Repr

/-- JS `x || dflt` for an optional string (the empty string is falsy). -/
def jsOrStr (o : Option Str) (dflt : Str) : Str :=
  match o with
  | some s => if s = [] then dflt else s
  | none => dflt

/-- JS `x || dflt` for an optional number (0 is falsy). -/
def jsOrNum (o : Option ℚ) (dflt : ℚ) : ℚ :=
  match o with
  | some x => if x = 0 then dflt else x
  | none => dflt

/-- The per-item shaping of the JSON import branch of `importDeckFile`.
`freshId` models the `uid()` generated when the item carries no id. -/
def importJSONItem (t : ℚ) (freshId : Str) (it : JSONItemIn) : Item :=
  { id := jsOrStr it.id freshId
    term := jsOrStr it.term []
    definition := jsOrStr it.definition []
    ex := jsOrStr it.ex []
    createdAt := jsOrNum it.createdAt t
    srs := some (match it.srs with
      | some s =>
        { ef := s.ef.getD 2.5, reps := s.reps.getD 0,
          intervalDays := s.intervalDays.getD 0, due := s.due.getD t,
          lapses := s.lapses.getD 0, lastReviewed := s.lastReviewed.getD 0 }
      | none => defaultSRS t) }

/-- The `incoming` deck built by the JSON import branch: defaulted fields,
per-item shaping, and the drop of items lacking a term or a definition. -/
def importJSONDeck (t : ℚ) (freshDeckId : Str) (freshItemIds : ℕ → Str)
    (din : JSONDeckIn) : Deck :=
  { id := jsOrStr din.id freshDeckId
    title := jsOrStr din.title (("Imported Deck").data)
    createdAt := jsOrNum din.createdAt t
    items := (din.items.enum.map fun p => importJSONItem t (freshItemIds p.1) p.2).filter
      fun it => decide (it.term ≠ [] ∧ it.definition ≠ []) }

/-- `state.decks[incoming.id] = incoming; state.activeDeckId = incoming.id`
for the JSON branch. -/
def importJSONIntoState (t : ℚ) (freshDeckId : Str) (freshItemIds : ℕ → Str)
    (din : JSONDeckIn) (st : AppState) : AppState :=
  let incoming := importJSONDeck t freshDeckId freshItemIds din
  { activeDeckId := incoming.id, decks := setDeck st.decks incoming }

/-- `file.name.replace(/\.[^.]+$/, "")`: strip a final extension. -/
def stripExt (name : Str) : Str :=
  let rev := name.reverse
  let after := rev.takeWhile fun c => c ≠ '.'
  match rev.dropWhile fun c => c ≠ '.' with
  | '.' :: pre => if after = [] then name else pre.reverse
  | _ => name

/-- The row-to-triple extraction of the CSV import branch:
`(r.term ?? r.Term ?? r[0] ?? "").toString().trim()` and its two siblings,
for both shapes `parseCSV` can return, followed by the
`if (!term || !definition) continue` drop. -/
def csvItemsOf (rows : CSVRows) : List (Str × Str × Str) :=
  let triples :=
    match rows with
    | CSVRows.recs rs =>
      rs.map fun (r : CSVRec) => (jsTrim r.term, jsTrim r.definition, jsTrim r.ex)
    | CSVRows.raw rs =>
      rs.map fun (r : List Str) =>
        (jsTrim (r.getD 0 []), jsTrim (r.getD 1 []), jsTrim (r.getD 2 []))
  triples.filter fun tr => decide (tr.1 ≠ [] ∧ tr.2.1 ≠ [])

/-- The deck built by the CSV import branch of `importDeckFile`:
`{ id: uid(), title: file.name.replace(/\.[^.]+$/, ""), createdAt: now(),
items }`. `freshDeckId`/`freshItemIds` model the generated `uid()`s. -/
def importCSVDeck (t : ℚ) (freshDeckId : Str) (freshItemIds : ℕ → Str)
    (fileName text : Str) : Deck :=
  { id := freshDeckId
    title := stripExt fileName
    createdAt := t
    items := (csvItemsOf (parseCSV text)).enum.map fun p =>
      { id := freshItemIds p.1, term := p.2.1, definition := p.2.2.1, ex := p.2.2.2,
        createdAt := t, srs := some (defaultSRS t) } }

/-- `state.decks[id] = deck; state.activeDeckId = id` for the CSV branch. -/
def importCSVIntoState (t : ℚ) (freshDeckId : Str) (freshItemIds : ℕ → Str)
    (fileName text : Str) (st : AppState) : AppState :=
  let deck := importCSVDeck t freshDeckId freshItemIds fileName text
  { activeDeckId := deck.id, decks := setDeck st.decks deck }

/-- An imported file: name, MIME type (`file.type`) and text content. -/
structure ImportFile where
  name : Str
  mime : Str
  text : Str
deriving DecidableEq, Repr

/-- Which branch of `importDeckFile` runs; `reject` is the final
`alert("Unsupported file type. Use .json or .csv")`, which performs no state
mutation. -/
inductive ImportChoice where
  | json
  | csv
  | reject
deriving DecidableEq, Repr

/-- The branch selection of `importDeckFile`: `lower.endsWith(".json")`, then
`lower.endsWith(".csv") || file.type.includes("csv") || text.includes(",")`. -/
def importDispatch (f : ImportFile) : ImportChoice :=
  let lower := jsToLower f.name
  if (".json").data <:+ lower then ImportChoice.json
  else if (".csv").data <:+ lower ∨ ("csv").data <:+: f.mime ∨ ',' ∈ f.text then
    ImportChoice.csv
  else ImportChoice.reject

/-- `importDeckFile(file)` as a state transformer. `parsedJSON` models the
result of a successful `JSON.parse` (after envelope unwrapping) and is only
consulted by the JSON branch. -/
def importDeckFileState (t : ℚ) (freshDeckId : Str) (freshItemIds : ℕ → Str)
    (f : ImportFile) (parsedJSON : JSONDeckIn) (st : AppState) : AppState :=
  match importDispatch f with
  | ImportChoice.json => importJSONIntoState t freshDeckId freshItemIds parsedJSON st
  | ImportChoice.csv => importCSVIntoState t freshDeckId freshItemIds f.name f.text st
  | ImportChoice.reject => st

/-- The conditions under which a deck item survives the CSV round trip
unchanged: its text fields are trim-invariant and free of newline characters,
and term and definition are nonempty. -/
def csvSafeItem (it : Item) : Prop :=
  jsTrim it.term = it.term ∧ jsTrim it.definition = it.definition ∧ jsTrim it.ex = it.ex ∧
  it.term ≠ [] ∧ it.definition ≠ [] ∧
  '\n' ∉ it.term ∧ '\n' ∉ it.definition ∧ '\n' ∉ it.ex ∧
  '\r' ∉ it.term ∧ '\r' ∉ it.definition ∧ '\r' ∉ it.ex

instance (it : Item) : Decidable (csvSafeItem it) := by
  unfold csvSafeItem
  infer_instance

/-! ## Theorems -/

theorem gradeToQuality_again : gradeToQuality "again" = 1 := rfl

theorem gradeToQuality_hard : gradeToQuality "hard" = 3 := rfl

theorem gradeToQuality_good : gradeToQuality "good" = 4 := rfl

theorem gradeToQuality_easy : gradeToQuality "easy" = 5 := rfl

theorem clamp_bounds {n a b : ℚ} (hab : a ≤ b) : a ≤ clamp n a b ∧ clamp n a b ≤ b :=
  ⟨le_min hab (le_max_left a n), min_le_left b _⟩

/-- C1: for every grade in {again, hard, good, easy} and every prior review
state, after `applyGrade` the due timestamp equals
`lastReviewed + intervalDays * 86400000` and the easiness factor lies in
[1.3, 2.7]. -/
theorem applyGrade_due_and_ef (grade : String)
    (_hg : grade = "again" ∨ grade = "hard" ∨ grade = "good" ∨ grade = "easy")
    (t : ℚ) (hintUsed : Bool) (s : SRS) :
    (applyGrade t hintUsed s grade).due =
      (applyGrade t hintUsed s grade).lastReviewed +
        (applyGrade t hintUsed s grade).intervalDays * 86400000 ∧
    (1.3 : ℚ) ≤ (applyGrade t hintUsed s grade).ef ∧
      (applyGrade t hintUsed s grade).ef ≤ 2.7 := by
  have hc : ((1.3 : ℚ)) ≤ 2.7 := by norm_num
  simp only [applyGrade]
  refine ⟨?_, ?_, ?_⟩ <;>
    split_ifs <;>
    simp [DAY, clamp_bounds hc, (clamp_bounds hc).1, (clamp_bounds hc).2] <;>
    norm_num [DAY]

/-- Witness for C1 at a concrete input. -/
theorem applyGrade_due_and_ef_witness :
    ("good" = "again" ∨ "good" = "hard" ∨ "good" = "good" ∨ "good" = "easy") ∧
    ((applyGrade 0 false (defaultSRS 0) "good").due =
      (applyGrade 0 false (defaultSRS 0) "good").lastReviewed +
        (applyGrade 0 false (defaultSRS 0) "good").intervalDays * 86400000 ∧
    (1.3 : ℚ) ≤ (applyGrade 0 false (defaultSRS 0) "good").ef ∧
      (applyGrade 0 false (defaultSRS 0) "good").ef ≤ 2.7) :=
  ⟨Or.inr (Or.inr (Or.inl rfl)),
   applyGrade_due_and_ef "good" (Or.inr (Or.inr (Or.inl rfl))) 0 false (defaultSRS 0)⟩

/-- C2: grading "again" resets the repetition count to 0, sets the interval to
exactly 1 day, and increments the lapse count by exactly 1, for every prior
state and both values of the hint flag. -/
theorem applyGrade_again (t : ℚ) (hintUsed : Bool) (s : SRS) :
    (applyGrade t hintUsed s "again").reps = 0 ∧
    (applyGrade t hintUsed s "again").intervalDays = 1 ∧
    (applyGrade t hintUsed s "again").lapses = s.lapses + 1 := by
  simp only [applyGrade, gradeToQuality_again]
  norm_num

/-- C3: from a fresh item, two consecutive "good" grades give intervals 1 then
6 (reps 1 then 2), a third "good" gives `round(6 × ef_after_second_grade)`;
in general a successful repetition beyond the second sets
`interval = round(previous interval × current easiness factor)`. -/
theorem applyGrade_good_progression (t0 t1 t2 t3 : ℚ) :
    ((applyGrade t1 false (defaultSRS t0) "good").intervalDays = 1 ∧
     (applyGrade t1 false (defaultSRS t0) "good").reps = 1) ∧
    ((applyGrade t2 false (applyGrade t1 false (defaultSRS t0) "good") "good").intervalDays = 6 ∧
     (applyGrade t2 false (applyGrade t1 false (defaultSRS t0) "good") "good").reps = 2) ∧
    (applyGrade t3 false
        (applyGrade t2 false (applyGrade t1 false (defaultSRS t0) "good") "good")
        "good").intervalDays =
      jsRound (6 *
        (applyGrade t2 false (applyGrade t1 false (defaultSRS t0) "good") "good").ef) ∧
    (∀ (t : ℚ) (s : SRS) (grade : String), 2 ≤ s.reps → 3 ≤ gradeToQuality grade →
      (applyGrade t false s grade).intervalDays = jsRound (s.intervalDays * s.ef)) := by
  have hgen : ∀ (t : ℚ) (s : SRS) (grade : String), 2 ≤ s.reps → 3 ≤ gradeToQuality grade →
      (applyGrade t false s grade).intervalDays = jsRound (s.intervalDays * s.ef) := by
    intro t s grade hreps hq
    have hq3 : ¬ gradeToQuality grade < 3 := by linarith
    have hr1 : ¬ s.reps + 1 = 1 := by
      intro h
      have : s.reps = 0 := by linarith
      linarith
    have hr2 : ¬ s.reps + 1 = 2 := by
      intro h
      have : s.reps = 1 := by linarith
      linarith
    simp only [applyGrade, Bool.false_eq_true, false_and, if_false, hq3, hr1, hr2]
  have hg1 : applyGrade t1 false (defaultSRS t0) "good" =
      { ef := 2.5, reps := 1, intervalDays := 1, due := t1 + 86400000, lapses := 0,
        lastReviewed := t1 } := by
    simp only [applyGrade, gradeToQuality_good, defaultSRS]
    norm_num [clamp, min_def, max_def, DAY, SRS.mk.injEq]
  have hg2 : applyGrade t2 false
      ({ ef := 2.5, reps := 1, intervalDays := 1, due := t1 + 86400000, lapses := 0,
         lastReviewed := t1 } : SRS) "good" =
      { ef := 2.5, reps := 2, intervalDays := 6, due := t2 + 6 * 86400000, lapses := 0,
        lastReviewed := t2 } := by
    simp only [applyGrade, gradeToQuality_good]
    norm_num [clamp, min_def, max_def, DAY, SRS.mk.injEq]
  refine ⟨⟨by rw [hg1], by rw [hg1]⟩, ⟨by rw [hg1, hg2], by rw [hg1, hg2]⟩, ?_, hgen⟩
  have h3 := hgen t3 (applyGrade t2 false (applyGrade t1 false (defaultSRS t0) "good") "good")
    "good" (by rw [hg1, hg2]) (by rw [gradeToQuality_good]; norm_num)
  rw [h3, hg1, hg2]

/-- Witness for C3 at a concrete input (the general third-repetition rule at a
state with two successful repetitions behind it). -/
theorem applyGrade_good_progression_witness :
    2 ≤ ({ defaultSRS 0 with reps := 2, intervalDays := 6 } : SRS).reps ∧
    3 ≤ gradeToQuality "good" ∧
    (applyGrade 0 false ({ defaultSRS 0 with reps := 2, intervalDays := 6 }) "good").intervalDays
      = jsRound (({ defaultSRS 0 with reps := 2, intervalDays := 6 } : SRS).intervalDays *
          ({ defaultSRS 0 with reps := 2, intervalDays := 6 } : SRS).ef) :=
  ⟨by norm_num, by rw [gradeToQuality_good]; norm_num,
   (applyGrade_good_progression 0 0 0 0).2.2.2 0
     ({ defaultSRS 0 with reps := 2, intervalDays := 6 }) "good" (by norm_num)
     (by rw [gradeToQuality_good]; norm_num)⟩

/-- C4: when a hint was used and the grade's quality is strictly greater than
3, the computed interval is replaced by `max(1, floor(interval * 0.7))`; when
the hint flag is false or the quality is at most 3, the computed interval (the
one `applyGrade` produces without a hint) is left unreduced. -/
theorem applyGrade_hint_reduction (t : ℚ) (s : SRS) (grade : String) :
    (3 < gradeToQuality grade →
      (applyGrade t true s grade).intervalDays =
        max 1 (jsFloor ((applyGrade t false s grade).intervalDays * 0.7))) ∧
    (gradeToQuality grade ≤ 3 →
      (applyGrade t true s grade).intervalDays = (applyGrade t false s grade).intervalDays) := by
  constructor
  · intro hq
    have hq3 : ¬ gradeToQuality grade < 3 := by linarith
    simp only [applyGrade, Bool.false_eq_true, false_and, if_false, hq3, hq,
      true_and, if_true]
  · intro hq
    have hq3 : ¬ 3 < gradeToQuality grade := by linarith
    simp only [applyGrade, Bool.false_eq_true, false_and, if_false, hq3,
      and_false, true_and]

/-- Witness for C4 at concrete inputs (both the reduced and the unreduced
case). -/
theorem applyGrade_hint_reduction_witness :
    (3 < gradeToQuality "good" ∧
      (applyGrade 0 true (defaultSRS 0) "good").intervalDays =
        max 1 (jsFloor ((applyGrade 0 false (defaultSRS 0) "good").intervalDays * 0.7))) ∧
    (gradeToQuality "hard" ≤ 3 ∧
      (applyGrade 0 true (defaultSRS 0) "hard").intervalDays =
        (applyGrade 0 false (defaultSRS 0) "hard").intervalDays) :=
  ⟨⟨by rw [gradeToQuality_good]; norm_num,
    (applyGrade_hint_reduction 0 (defaultSRS 0) "good").1
      (by rw [gradeToQuality_good]; norm_num)⟩,
   ⟨by rw [gradeToQuality_hard],
    (applyGrade_hint_reduction 0 (defaultSRS 0) "hard").2
      (by rw [gradeToQuality_hard])⟩⟩

/-- C5: without "study ahead" the pool is exactly the items due at time `t`
(items with no review state counting as due now); with "study ahead" it is all
items. The pool is sorted ascending by due timestamp, and the session queue is
the first `min(limit, pool size)` items of the sorted pool. -/
theorem startStudy_queue_spec (t : ℚ) (limit : ℕ) (ahead : Bool) (items : List Item) :
    (∀ it : Item, it ∈ startStudyPool t ahead items ↔
        it ∈ items ∧ (ahead = true ∨ itemDue t it ≤ t)) ∧
    (startStudySorted t ahead items).Pairwise (fun a b => itemDue t a ≤ itemDue t b) ∧
    (startStudySorted t ahead items).Perm (startStudyPool t ahead items) ∧
    startStudyQueue t limit ahead items =
      ((startStudySorted t ahead items).take
        (min limit (startStudyPool t ahead items).length)).map Item.id ∧
    (startStudyQueue t limit ahead items).length =
      min limit (startStudyPool t ahead items).length := by
  refine ⟨?_, ?_, ?_, rfl, ?_⟩
  · intro it
    cases ahead <;> simp [startStudyPool, dueItems, List.mem_filter]
  · have h := @List.sorted_mergeSort Item (fun a b => decide (itemDue t a ≤ itemDue t b))
      (fun a b c hab hbc => by
        simp only [decide_eq_true_eq] at *
        exact le_trans hab hbc)
      (fun a b => by
        simp only [Bool.or_eq_true, decide_eq_true_eq]
        exact le_total _ _)
      (startStudyPool t ahead items)
    exact h.imp (fun hab => by simpa using hab)
  · exact List.mergeSort_perm _ _
  · simp only [startStudyQueue, List.length_map, List.length_take, startStudySorted,
      List.length_mergeSort]
    omega

/-- C6: with fewer than 4 items multiple choice is never selected (forced "mc"
falls back to type-from-definition); with at least 4 items, mixed mode selects
"mc" when r < 0.45, "type_def" when 0.45 ≤ r < 0.75, "type_audio" otherwise,
and each forced mode returns its own task type. -/
theorem pickTaskForItem_spec (count : ℕ) (r : ℚ) (mode : String) :
    (count < 4 →
      pickTaskForItem count mode r ≠ "mc" ∧
      pickTaskForItem count "mc" r = "type_def") ∧
    (4 ≤ count →
      (pickTaskForItem count "mixed" r =
        if r < 0.45 then "mc" else if r < 0.75 then "type_def" else "type_audio") ∧
      pickTaskForItem count "mc" r = "mc" ∧
      pickTaskForItem count "type_def" r = "type_def" ∧
      pickTaskForItem count "type_audio" r = "type_audio") := by
  constructor
  · intro hlt
    have hc : decide (4 ≤ count) = false := by simp; omega
    constructor
    · simp only [pickTaskForItem, hc]
      split_ifs <;> first | decide | simp_all
    · simp [pickTaskForItem, hc]
  · intro hge
    have hc : decide (4 ≤ count) = true := by simpa using hge
    refine ⟨?_, ?_, ?_, ?_⟩ <;>
      simp only [pickTaskForItem, hc] <;>
      split_ifs <;> first | rfl | decide | simp_all

/-- Witness for C6 at concrete inputs (a 3-item deck and a 4-item deck). -/
theorem pickTaskForItem_spec_witness :
    ((3 < 4) ∧
      (pickTaskForItem 3 "mixed" 0 ≠ "mc" ∧ pickTaskForItem 3 "mc" 0 = "type_def")) ∧
    ((4 ≤ 4) ∧
      ((pickTaskForItem 4 "mixed" 0 =
        if (0 : ℚ) < 0.45 then "mc" else if (0 : ℚ) < 0.75 then "type_def" else "type_audio") ∧
      pickTaskForItem 4 "mc" 0 = "mc" ∧
      pickTaskForItem 4 "type_def" 0 = "type_def" ∧
      pickTaskForItem 4 "type_audio" 0 = "type_audio")) :=
  ⟨⟨by norm_num, (pickTaskForItem_spec 3 0 "mixed").1 (by norm_num)⟩,
   ⟨le_refl 4, (pickTaskForItem_spec 4 0 "mixed").2 (le_refl 4)⟩⟩

/-- C10: grading mutates only the graded item's `srs`: its identifying fields
are unchanged, every other item is untouched, and no other deck field is
modified. -/
theorem gradeItemInDeck_frame (t : ℚ) (hintUsed : Bool) (d : Deck) (itemId : Str)
    (grade : String) :
    (∀ it : Item,
      (gradeItem t hintUsed it grade).id = it.id ∧
      (gradeItem t hintUsed it grade).term = it.term ∧
      (gradeItem t hintUsed it grade).definition = it.definition ∧
      (gradeItem t hintUsed it grade).ex = it.ex ∧
      (gradeItem t hintUsed it grade).createdAt = it.createdAt) ∧
    (gradeItemInDeck t hintUsed d itemId grade).id = d.id ∧
    (gradeItemInDeck t hintUsed d itemId grade).title = d.title ∧
    (gradeItemInDeck t hintUsed d itemId grade).createdAt = d.createdAt ∧
    List.Forall₂ (fun a b =>
        b.id = a.id ∧ b.term = a.term ∧ b.definition = a.definition ∧
        b.ex = a.ex ∧ b.createdAt = a.createdAt ∧ (a.id ≠ itemId → b = a))
      d.items (gradeItemInDeck t hintUsed d itemId grade).items := by
  refine ⟨fun it => ⟨rfl, rfl, rfl, rfl, rfl⟩, rfl, rfl, rfl, ?_⟩
  simp only [gradeItemInDeck]
  rw [List.forall₂_map_right_iff, List.forall₂_same]
  intro it _
  by_cases h : it.id = itemId <;> simp [h, gradeItem]

example :
    parseCSV (("term,definition,example\n\"a\"\"x\",\"b,c\",\"e\"").data) =
      CSVRows.recs [{ term := ("a\"x").data, definition := ("b,c").data,
                      ex := ("e").data }] := by
  decide

/-- C7 as stated is false: a file named with an unsupported extension is still
imported through the CSV branch when its text contains a comma (the source
also tests `file.type.includes("csv") || text.includes(",")`). Concretely,
importing `a.txt` with content `x,y` grows the deck table. -/
theorem importDeckFile_unsupported_counterexample :
    (¬ (".json").data <:+ jsToLower (("a.txt").data)) ∧
    (¬ (".csv").data <:+ jsToLower (("a.txt").data)) ∧
    importDispatch { name := ("a.txt").data, mime := [], text := ("x,y").data } =
      ImportChoice.csv ∧
    (importDeckFileState 0 (("f1").data) (fun _ => ("g1").data)
        { name := ("a.txt").data, mime := [], text := ("x,y").data }
        { id := none, title := none, createdAt := none, items := [] }
        { activeDeckId := ("d1").data,
          decks := [{ id := ("d1").data, title := ("T").data, createdAt := 0,
                      items := [] }] }).decks.length ≠
      ({ activeDeckId := ("d1").data,
         decks := [{ id := ("d1").data, title := ("T").data, createdAt := 0,
                     items := [] }] } : AppState).decks.length := by
  refine ⟨by decide, by decide, by decide, ?_⟩
  decide

/-- C7 amended: an import is rejected — with the unsupported-file message and
no state change — exactly when the lower-cased name ends in neither ".json"
nor ".csv", the MIME type does not contain "csv", and the text contains no
comma. -/
theorem importDeckFile_reject_frame (t : ℚ) (fid : Str) (fits : ℕ → Str)
    (f : ImportFile) (din : JSONDeckIn) (st : AppState)
    (h1 : ¬ (".json").data <:+ jsToLower f.name)
    (h2 : ¬ (".csv").data <:+ jsToLower f.name)
    (h3 : ¬ ("csv").data <:+: f.mime)
    (h4 : ',' ∉ f.text) :
    importDispatch f = ImportChoice.reject ∧
    importDeckFileState t fid fits f din st = st := by
  have hd : importDispatch f = ImportChoice.reject := by
    simp [importDispatch, h1, h2, h3, h4]
  exact ⟨hd, by simp [importDeckFileState, hd]⟩

/-- Witness for the amended C7 at a concrete input. -/
theorem importDeckFile_reject_frame_witness :
    (¬ (".json").data <:+ jsToLower (("notes.txt").data)) ∧
    (¬ (".csv").data <:+ jsToLower (("notes.txt").data)) ∧
    (¬ ("csv").data <:+: ([] : Str)) ∧
    (',' ∉ ("hello").data) ∧
    (importDispatch { name := ("notes.txt").data, mime := [], text := ("hello").data } =
        ImportChoice.reject ∧
      importDeckFileState 0 (("f1").data) (fun _ => ("g1").data)
          { name := ("notes.txt").data, mime := [], text := ("hello").data }
          { id := none, title := none, createdAt := none, items := [] }
          { activeDeckId := ("d1").data, decks := [] } =
        { activeDeckId := ("d1").data, decks := [] }) :=
  ⟨by decide, by decide, by decide, by decide,
   importDeckFile_reject_frame 0 (("f1").data) (fun _ => ("g1").data)
     { name := ("notes.txt").data, mime := [], text := ("hello").data }
     { id := none, title := none, createdAt := none, items := [] }
     { activeDeckId := ("d1").data, decks := [] }
     (by decide) (by decide) (by decide) (by decide)⟩

/-- C8 as stated is false: a JSON import whose payload carries the id of an
already-existing deck overwrites that deck (`state.decks[incoming.id] =
incoming`), so a previously existing deck does not survive unchanged.
Concretely, importing `x.json` with deck id `d1` into a state whose deck `d1`
holds one item leaves a table whose only `d1` entry has no items. -/
theorem importDeckFile_overwrite_counterexample :
    importDispatch { name := ("x.json").data, mime := [], text := [] } =
      ImportChoice.json ∧
    (importDeckFileState 0 (("f1").data) (fun _ => ("g1").data)
        { name := ("x.json").data, mime := [], text := [] }
        { id := some (("d1").data), title := some (("New").data), createdAt := none,
          items := [] }
        { activeDeckId := ("d1").data,
          decks := [{ id := ("d1").data, title := ("Old").data, createdAt := 0,
                      items := [{ id := ("i1").data, term := ("cat").data,
                                  definition := ("animal").data, ex := [],
                                  createdAt := 0, srs := none }] }] }).decks.map
        (fun d => (d.id, d.items.length)) ≠
      ({ activeDeckId := ("d1").data,
         decks := [{ id := ("d1").data, title := ("Old").data, createdAt := 0,
                     items := [{ id := ("i1").data, term := ("cat").data,
                                 definition := ("animal").data, ex := [],
                                 createdAt := 0, srs := none }] }] } : AppState).decks.map
        (fun d => (d.id, d.items.length)) := by
  refine ⟨by decide, ?_⟩
  decide

/-- C8 amended: a successful import builds its deck from the imported file
alone (`importJSONDeck`/`importCSVDeck` do not read the prior state, so no
merge into the active deck can occur) and makes the new deck active. Every
previously existing deck whose id differs from the incoming deck's id is
unchanged; a JSON payload reusing an existing deck id replaces that deck,
while a CSV import uses a freshly generated id, and under freshness the whole
deck table is preserved and extended. -/
theorem importDeckFile_new_deck (t : ℚ) (fid : Str) (fits : ℕ → Str) (f : ImportFile)
    (din : JSONDeckIn) (st : AppState) :
    (importDispatch f = ImportChoice.json →
      (importDeckFileState t fid fits f din st).activeDeckId =
        (importJSONDeck t fid fits din).id ∧
      importJSONDeck t fid fits din ∈ (importDeckFileState t fid fits f din st).decks ∧
      (∀ d ∈ st.decks, d.id ≠ (importJSONDeck t fid fits din).id →
        d ∈ (importDeckFileState t fid fits f din st).decks)) ∧
    (importDispatch f = ImportChoice.csv →
      (∀ d ∈ st.decks, d.id ≠ fid) →
      (importDeckFileState t fid fits f din st).activeDeckId = fid ∧
      (importDeckFileState t fid fits f din st).decks =
        st.decks ++ [importCSVDeck t fid fits f.name f.text]) := by
  constructor
  · intro hj
    simp only [importDeckFileState, hj, importJSONIntoState]
    refine ⟨trivial, ?_, ?_⟩
    · simp only [setDeck]
      split_ifs with h
      · obtain ⟨e, he, heq⟩ := List.any_eq_true.mp h
        exact List.mem_map.mpr ⟨e, he, by simp [of_decide_eq_true heq]⟩
      · simp
    · intro d hd hne
      simp only [setDeck]
      split_ifs with h
      · exact List.mem_map.mpr ⟨d, hd, by simp [hne]⟩
      · exact List.mem_append_left _ hd
  · intro hc hfresh
    simp only [importDeckFileState, hc, importCSVIntoState]
    refine ⟨rfl, ?_⟩
    simp only [setDeck, importCSVDeck]
    rw [if_neg]
    simp only [List.any_eq_true, not_exists, not_and]
    intro e he
    simp [hfresh e he]

/-- Witness for the amended C8 at concrete inputs (one JSON file, one CSV
file). -/
theorem importDeckFile_new_deck_witness :
    (importDispatch { name := ("x.json").data, mime := [], text := [] } =
        ImportChoice.json ∧
      (importDeckFileState 0 (("f1").data) (fun _ => ("g1").data)
          { name := ("x.json").data, mime := [], text := [] }
          { id := some (("d2").data), title := none, createdAt := none, items := [] }
          { activeDeckId := ("d1").data, decks := [] }).activeDeckId =
        (importJSONDeck 0 (("f1").data) (fun _ => ("g1").data)
          { id := some (("d2").data), title := none, createdAt := none,
            items := [] }).id) ∧
    (importDispatch { name := ("y.csv").data, mime := [], text := ("a,b").data } =
        ImportChoice.csv ∧
      (∀ d ∈ ({ activeDeckId := ("d1").data, decks := [] } : AppState).decks,
        d.id ≠ ("f2").data) ∧
      (importDeckFileState 0 (("f2").data) (fun _ => ("g2").data)
          { name := ("y.csv").data, mime := [], text := ("a,b").data }
          { id := none, title := none, createdAt := none, items := [] }
          { activeDeckId := ("d1").data, decks := [] }).activeDeckId = ("f2").data) :=
  ⟨⟨by decide,
    ((importDeckFile_new_deck 0 (("f1").data) (fun _ => ("g1").data)
        { name := ("x.json").data, mime := [], text := [] }
        { id := some (("d2").data), title := none, createdAt := none, items := [] }
        { activeDeckId := ("d1").data, decks := [] }).1 (by decide)).1⟩,
   ⟨by decide, by simp,
    (((importDeckFile_new_deck 0 (("f2").data) (fun _ => ("g2").data)
        { name := ("y.csv").data, mime := [], text := ("a,b").data }
        { id := none, title := none, createdAt := none, items := [] }
        { activeDeckId := ("d1").data, decks := [] }).2 (by decide)
        (by simp)).1)⟩⟩

theorem parseCSVLineCore_qq (rest : List Char) (cur : Str) :
    parseCSVLineCore ('"' :: '"' :: rest) cur true =
      parseCSVLineCore rest (cur ++ ['"']) true := rfl

theorem parseCSVLineCore_q_false (rest : List Char) (cur : Str) :
    parseCSVLineCore ('"' :: rest) cur false = parseCSVLineCore rest cur true := by
  cases rest with
  | nil => rfl
  | cons d r2 => simp [parseCSVLineCore]

theorem parseCSVLineCore_q_true_nil (cur : Str) :
    parseCSVLineCore ['"'] cur true = [cur] := rfl

theorem parseCSVLineCore_q_true_ne (d : Char) (r2 : List Char) (cur : Str) (hd : d ≠ '"') :
    parseCSVLineCore ('"' :: d :: r2) cur true = parseCSVLineCore (d :: r2) cur false := by
  simp [parseCSVLineCore, hd]

theorem parseCSVLineCore_comma (rest : List Char) (cur : Str) :
    parseCSVLineCore (',' :: rest) cur false = cur :: parseCSVLineCore rest [] false := by
  cases rest with
  | nil => rfl
  | cons d r2 => simp [parseCSVLineCore]

theorem parseCSVLineCore_other (c : Char) (rest : List Char) (cur : Str) (inQ : Bool)
    (hc : c ≠ '"') (hcc : ¬(c = ',' ∧ inQ = false)) :
    parseCSVLineCore (c :: rest) cur inQ = parseCSVLineCore rest (cur ++ [c]) inQ := by
  cases rest with
  | nil => simp [parseCSVLineCore, hc, hcc]
  | cons d r2 => simp [parseCSVLineCore, hc, hcc]

theorem parseCSVLineCore_esc (s : Str) (rest : List Char) (cur : Str)
    (hrest : rest = [] ∨ ∃ r2, rest = ',' :: r2) :
    parseCSVLineCore (jsEscQuotes s ++ '"' :: rest) cur true =
      parseCSVLineCore rest (cur ++ s) false := by
  induction s generalizing cur with
  | nil =>
    rcases hrest with h | ⟨r2, h⟩ <;> subst h <;>
      simp [jsEscQuotes, parseCSVLineCore_q_true_nil, parseCSVLineCore_q_true_ne,
        parseCSVLineCore, parseCSVLineCore_comma]
  | cons c s' ih =>
    by_cases hc : c = '"'
    · subst hc
      simp only [jsEscQuotes, eq_self_iff_true, if_true, List.cons_append]
      rw [parseCSVLineCore_qq, ih, List.append_assoc]
      rfl
    · simp only [jsEscQuotes, if_neg hc, List.cons_append]
      rw [parseCSVLineCore_other c _ cur true hc (by simp), ih, List.append_assoc]
      rfl

theorem parseCSVLineCore_field_comma (v : Str) (rest : List Char) (cur : Str) :
    parseCSVLineCore (renderField v ++ ',' :: rest) cur false =
      (cur ++ v) :: parseCSVLineCore rest [] false := by
  show parseCSVLineCore (('"' :: (jsEscQuotes v ++ ['"'])) ++ ',' :: rest) cur false = _
  rw [List.cons_append, parseCSVLineCore_q_false, List.append_assoc, List.singleton_append,
    parseCSVLineCore_esc v (',' :: rest) cur (Or.inr ⟨rest, rfl⟩), parseCSVLineCore_comma]

theorem parseCSVLineCore_field_last (v : Str) (cur : Str) :
    parseCSVLineCore (renderField v) cur false = [cur ++ v] := by
  show parseCSVLineCore ('"' :: (jsEscQuotes v ++ ['"'])) cur false = _
  rw [parseCSVLineCore_q_false,
    show jsEscQuotes v ++ ['"'] = jsEscQuotes v ++ '"' :: ([] : List Char) from rfl,
    parseCSVLineCore_esc v [] cur (Or.inl rfl)]
  rfl

theorem parseCSVLineCore_renderRow (it : Item) :
    parseCSVLineCore (renderRow it) [] false = [it.term, it.definition, it.ex] := by
  have hsh : renderRow it =
      renderField it.term ++ ',' ::
        (renderField it.definition ++ ',' :: renderField it.ex) := by
    simp [renderRow, List.append_assoc]
  rw [hsh, parseCSVLineCore_field_comma, parseCSVLineCore_field_comma,
    parseCSVLineCore_field_last]
  simp

theorem crlfToLf_no_cr (l : List Char) (h : '\r' ∉ l) : crlfToLf l = l := by
  induction l with
  | nil => rfl
  | cons c rest ih =>
    have hc : c ≠ '\r' := fun e => h (e ▸ List.mem_cons_self c rest)
    have hr : '\r' ∉ rest := fun m => h (List.mem_cons_of_mem _ m)
    cases rest with
    | nil => rfl
    | cons d r2 =>
      have : crlfToLf (c :: d :: r2) = c :: crlfToLf (d :: r2) := by
        simp [crlfToLf, hc]
      rw [this, ih hr]

theorem crToLf_no_cr (l : List Char) (h : '\r' ∉ l) : crToLf l = l := by
  induction l with
  | nil => rfl
  | cons c rest ih =>
    have hc : c ≠ '\r' := fun e => h (e ▸ List.mem_cons_self c rest)
    have hr : '\r' ∉ rest := fun m => h (List.mem_cons_of_mem _ m)
    simp only [crToLf, List.map_cons, if_neg hc]
    exact congrArg _ (ih hr)

theorem splitLines_no_nl (l : List Char) (h : '\n' ∉ l) : splitLines l = [l] := by
  induction l with
  | nil => rfl
  | cons c rest ih =>
    have hc : c ≠ '\n' := fun e => h (e ▸ List.mem_cons_self c rest)
    have hr : '\n' ∉ rest := fun m => h (List.mem_cons_of_mem _ m)
    simp [splitLines, hc, ih hr]

theorem splitLines_append_nl (x r : List Char) (h : '\n' ∉ x) :
    splitLines (x ++ '\n' :: r) = x :: splitLines r := by
  induction x with
  | nil => simp [splitLines]
  | cons c x' ih =>
    have hc : c ≠ '\n' := fun e => h (e ▸ List.mem_cons_self c x')
    have hx : '\n' ∉ x' := fun m => h (List.mem_cons_of_mem _ m)
    simp [splitLines, hc, ih hx]

theorem splitLines_joinLines (L : List Str) (hL : L ≠ []) (h : ∀ x ∈ L, '\n' ∉ x) :
    splitLines (joinLines L) = L := by
  induction L with
  | nil => exact absurd rfl hL
  | cons x L' ih =>
    cases L' with
    | nil => exact splitLines_no_nl x (h x (List.mem_cons_self x []))
    | cons y L'' =>
      have hj : joinLines (x :: y :: L'') = x ++ '\n' :: joinLines (y :: L'') := rfl
      rw [hj, splitLines_append_nl x _ (h x (List.mem_cons_self _ _)),
        ih (List.cons_ne_nil y L'') fun z hz => h z (List.mem_cons_of_mem _ hz)]

theorem notMem_joinLines (c : Char) (L : List Str) (hc : c ≠ '\n')
    (h : ∀ x ∈ L, c ∉ x) : c ∉ joinLines L := by
  induction L with
  | nil => simp [joinLines]
  | cons x L' ih =>
    cases L' with
    | nil => exact h x (List.mem_cons_self x [])
    | cons y L'' =>
      have hj : joinLines (x :: y :: L'') = x ++ '\n' :: joinLines (y :: L'') := rfl
      rw [hj]
      intro hmem
      rcases List.mem_append.mp hmem with hx | hrest
      · exact h x (List.mem_cons_self _ _) hx
      · rcases List.mem_cons.mp hrest with he | hj2
        · exact hc he
        · exact ih (fun z hz => h z (List.mem_cons_of_mem _ hz)) hj2

theorem notMem_jsEscQuotes (c : Char) (v : Str) (hc : c ≠ '"') (h : c ∉ v) :
    c ∉ jsEscQuotes v := by
  induction v with
  | nil => simp [jsEscQuotes]
  | cons d v' ih =>
    have hd : c ≠ d := fun e => h (e ▸ List.mem_cons_self d v')
    have hv : c ∉ v' := fun m => h (List.mem_cons_of_mem _ m)
    by_cases hq : d = '"' <;> simp [jsEscQuotes, hq] <;>
      simp_all [List.mem_cons]

theorem notMem_renderField (c : Char) (v : Str) (hc : c ≠ '"') (h : c ∉ v) :
    c ∉ renderField v := by
  intro hmem
  rcases List.mem_cons.mp hmem with h1 | h2
  · exact hc h1
  rcases List.mem_append.mp h2 with h3 | h4
  · exact notMem_jsEscQuotes c v hc h h3
  · exact hc (List.mem_singleton.mp h4)

theorem notMem_renderRow (c : Char) (it : Item) (hc1 : c ≠ '"') (hc2 : c ≠ ',')
    (h1 : c ∉ it.term) (h2 : c ∉ it.definition) (h3 : c ∉ it.ex) :
    c ∉ renderRow it := by
  intro hmem
  simp only [renderRow] at hmem
  rcases List.mem_append.mp hmem with h | hC
  · rcases List.mem_append.mp h with h | hcm
    · rcases List.mem_append.mp h with h | hB
      · rcases List.mem_append.mp h with hA | hcm2
        · exact notMem_renderField c _ hc1 h1 hA
        · exact hc2 (List.mem_singleton.mp hcm2)
      · exact notMem_renderField c _ hc1 h2 hB
    · exact hc2 (List.mem_singleton.mp hcm)
  · exact notMem_renderField c _ hc1 h3 hC

theorem jsTrim_cons_ne_nil (c : Char) (l : List Char) (hc : isJsWS c = false) :
    jsTrim (c :: l) ≠ [] := by
  simp only [jsTrim, List.dropWhile_cons, hc, Bool.false_eq_true, if_false]
  intro h
  rw [List.reverse_eq_nil_iff, List.dropWhile_eq_nil_iff] at h
  have := h c (by simp)
  rw [hc] at this
  cases this

theorem csvLines_export (d : Deck) (h : ∀ it ∈ d.items, csvSafeItem it) :
    csvLines (exportDeckCSV d) = csvHeader :: d.items.map renderRow := by
  have hnl : ∀ x ∈ csvHeader :: d.items.map renderRow, '\n' ∉ x := by
    intro x hx
    rcases List.mem_cons.mp hx with he | hm
    · subst he; decide
    · obtain ⟨it, hit, rfl⟩ := List.mem_map.mp hm
      obtain ⟨_, _, _, _, _, h6, h7, h8, _, _, _⟩ := h it hit
      exact notMem_renderRow '\n' it (by decide) (by decide) h6 h7 h8
  have hcr : '\r' ∉ joinLines (csvHeader :: d.items.map renderRow) := by
    refine notMem_joinLines _ _ (by decide) ?_
    intro x hx
    rcases List.mem_cons.mp hx with he | hm
    · subst he; decide
    · obtain ⟨it, hit, rfl⟩ := List.mem_map.mp hm
      obtain ⟨_, _, _, _, _, _, _, _, h9, h10, h11⟩ := h it hit
      exact notMem_renderRow '\r' it (by decide) (by decide) h9 h10 h11
  unfold csvLines exportDeckCSV
  rw [crlfToLf_no_cr _ hcr, crToLf_no_cr _ hcr,
    splitLines_joinLines _ (List.cons_ne_nil _ _) hnl]
  rw [List.filter_eq_self.mpr]
  intro a ha
  rcases List.mem_cons.mp ha with he | hm
  · subst he; decide
  · obtain ⟨it, hit, rfl⟩ := List.mem_map.mp hm
    have hz : renderRow it = '"' :: (jsEscQuotes it.term ++ ['"'] ++ [','] ++
        renderField it.definition ++ [','] ++ renderField it.ex) := by
      simp [renderRow, renderField, List.cons_append, List.append_assoc]
    rw [hz]
    exact decide_eq_true (jsTrim_cons_ne_nil '"' _ (by decide))

theorem parseCSV_header (text : Str) (rows : List Str)
    (hl : csvLines text = csvHeader :: rows) :
    parseCSV text = CSVRows.recs ((rows.map parseCSVLine).map fun cols =>
      { term := cols.getD 0 [], definition := cols.getD 1 [], ex := cols.getD 2 [] }) := by
  unfold parseCSV
  rw [hl]
  have hhdr : (parseCSVLine csvHeader).map norm =
      [("term").data, ("definition").data, ("example").data] := by decide
  simp only [List.map_cons, List.tail_cons, hhdr]
  rw [if_pos (by decide)]
  have h1 : ([("term").data, ("definition").data, ("example").data] : List Str).indexOf
      (("term").data) = 0 := by decide
  have h2 : ([("term").data, ("definition").data, ("example").data] : List Str).indexOf
      (("definition").data) = 1 := by decide
  have h3 : ([("term").data, ("definition").data, ("example").data] : List Str).findIdx?
      (fun h => h = ("example").data) = some 2 := by decide
  simp only [h1, h2, h3]

theorem parseCSV_export (d : Deck) (h : ∀ it ∈ d.items, csvSafeItem it) :
    parseCSV (exportDeckCSV d) =
      CSVRows.recs (d.items.map fun it =>
        { term := jsTrim it.term, definition := jsTrim it.definition,
          ex := jsTrim it.ex }) := by
  rw [parseCSV_header _ _ (csvLines_export d h)]
  congr 1
  rw [List.map_map, List.map_map]
  apply List.map_congr_left
  intro it _
  have hrow : parseCSVLine (renderRow it) =
      [jsTrim it.term, jsTrim it.definition, jsTrim it.ex] := by
    unfold parseCSVLine
    rw [parseCSVLineCore_renderRow]
    rfl
  simp [Function.comp, hrow]

/-- C9 as stated is false: the CSV cells are trimmed on import
(`parseCSVLine` trims every cell and the CSV branch trims again), so an item
whose definition carries a trailing space comes back with a different triple.
Concretely, exporting a deck holding ("a", "b ", "") and re-importing the text
yields the triple set {("a", "b", "")}. -/
theorem exportDeckCSV_roundtrip_counterexample :
    ((("a").data, ("b ").data, ([] : Str)) ∈
      ({ id := ("d").data, title := ("T").data, createdAt := 0,
         items := [{ id := ("i").data, term := ("a").data, definition := ("b ").data,
                     ex := [], createdAt := 0, srs := none }] } : Deck).items.map
        (fun it => (it.term, it.definition, it.ex))) ∧
    ((("a").data, ("b ").data, ([] : Str)) ∉
      (importCSVDeck 0 (("f").data) (fun _ => ("g").data) (("d.csv").data)
        (exportDeckCSV
          { id := ("d").data, title := ("T").data, createdAt := 0,
            items := [{ id := ("i").data, term := ("a").data, definition := ("b ").data,
                        ex := [], createdAt := 0, srs := none }] })).items.map
        (fun it => (it.term, it.definition, it.ex))) := by
  constructor
  · decide
  · decide

/-- C9 amended: for decks all of whose items have trim-invariant, newline-free
text fields and a nonempty term and definition, exporting to CSV and
re-importing the text yields exactly the original (term, definition, example)
triples — as lists, hence as sets, independent of row order. -/
theorem exportDeckCSV_roundtrip (d : Deck) (t : ℚ) (fid : Str) (fits : ℕ → Str)
    (fname : Str) (h : ∀ it ∈ d.items, csvSafeItem it) :
    (importCSVDeck t fid fits fname (exportDeckCSV d)).items.map
        (fun it => (it.term, it.definition, it.ex)) =
      d.items.map (fun it => (it.term, it.definition, it.ex)) ∧
    ∀ tr : Str × Str × Str,
      tr ∈ (importCSVDeck t fid fits fname (exportDeckCSV d)).items.map
          (fun it => (it.term, it.definition, it.ex)) ↔
        tr ∈ d.items.map (fun it => (it.term, it.definition, it.ex)) := by
  have hmain : (importCSVDeck t fid fits fname (exportDeckCSV d)).items.map
      (fun it => (it.term, it.definition, it.ex)) =
      d.items.map (fun it => (it.term, it.definition, it.ex)) := by
    simp only [importCSVDeck]
    rw [parseCSV_export d h]
    simp only [csvItemsOf, List.map_map]
    have htr : d.items.map ((fun (r : CSVRec) =>
        (jsTrim r.term, jsTrim r.definition, jsTrim r.ex)) ∘ fun it =>
          ({ term := jsTrim it.term, definition := jsTrim it.definition,
             ex := jsTrim it.ex } : CSVRec)) =
        d.items.map fun it => (it.term, it.definition, it.ex) := by
      apply List.map_congr_left
      intro it hit
      obtain ⟨h1, h2, h3, _, _, _, _, _, _, _, _⟩ := h it hit
      simp only [Function.comp]
      rw [h1, h2, h3, h1, h2, h3]
    rw [htr]
    rw [List.filter_eq_self.mpr]
    · have hco : ((fun it : Item => (it.term, it.definition, it.ex)) ∘ fun
          (p : ℕ × Str × Str × Str) =>
            ({ id := fits p.1, term := p.2.1, definition := p.2.2.1, ex := p.2.2.2,
               createdAt := t, srs := some (defaultSRS t) } : Item)) =
          Prod.snd := by
        funext p
        rfl
      rw [hco, List.enum_map_snd]
    · intro tr htrm
      obtain ⟨it, hit, rfl⟩ := List.mem_map.mp htrm
      obtain ⟨_, _, _, h4, h5, _⟩ := h it hit
      exact decide_eq_true ⟨h4, h5⟩
  exact ⟨hmain, fun tr => by rw [hmain]⟩

/-- Witness for the amended C9 at a concrete deck. -/
theorem exportDeckCSV_roundtrip_witness :
    (∀ it ∈ ({ id := ("d").data, title := ("T").data, createdAt := 0,
               items := [{ id := ("i").data, term := ("cat").data,
                           definition := ("animal").data, ex := ("a cat").data,
                           createdAt := 0, srs := none }] } : Deck).items, csvSafeItem it) ∧
    (importCSVDeck 0 (("f").data) (fun _ => ("g").data) (("d.csv").data)
        (exportDeckCSV
          { id := ("d").data, title := ("T").data, createdAt := 0,
            items := [{ id := ("i").data, term := ("cat").data,
                        definition := ("animal").data, ex := ("a cat").data,
                        createdAt := 0, srs := none }] })).items.map
        (fun it => (it.term, it.definition, it.ex)) =
      ({ id := ("d").data, title := ("T").data, createdAt := 0,
         items := [{ id := ("i").data, term := ("cat").data,
                     definition := ("animal").data, ex := ("a cat").data,
                     createdAt := 0, srs := none }] } : Deck).items.map
        (fun it => (it.term, it.definition, it.ex)) :=
  ⟨by decide,
   (exportDeckCSV_roundtrip
     { id := ("d").data, title := ("T").data, createdAt := 0,
       items := [{ id := ("i").data, term := ("cat").data,
                   definition := ("animal").data, ex := ("a cat").data,
                   createdAt := 0, srs := none }] }
     0 (("f").data) (fun _ => ("g").data) (("d.csv").data) (by decide)).1⟩

end VocabSRS
